import Mathlib

/-!
Shallow embedding of the `jcilluffo75/jfprofsol-dev` ingestion functions.

Source files:
* `src/BlobTriggerFunction/FunctionApp.py` — the 835 remittance ingest
  (`dec`, `safe_date`, `split_composite`, `main`), modelled below in the
  `FunctionApp` namespace (`main` becomes `main835`).
* `src/BlobTriggerFunction/__init__.py` — the placeholder parser
  (`parse_edi`), modelled in the `BlobInit` namespace.

Python strings are modelled as Lean `String`s (ASCII payloads; the inputs
this development evaluates are ASCII).  Machine-level concerns that the
claims do not touch (IEEE rounding of `float`, unicode digit classes) are
noted at the definitions that abstract them.
-/

/-- Characters stripped by Python `str.strip()` (ASCII whitespace). -/
def isPySpace (c : Char) : Bool :=
  c = ' ' ∨ c = '\t' ∨ c = '\n' ∨ c = '\r' ∨ c = '\x0b' ∨ c = '\x0c'

/-- Python `s.strip()`: drop leading and trailing whitespace. -/
def pystrip (s : String) : String :=
  ⟨((s.data.dropWhile isPySpace).reverse.dropWhile isPySpace).reverse⟩

/-- Split a character list at every occurrence of `sep`, keeping empty
pieces — the semantics of Python `str.split(sep)` for a one-character
separator. -/
def pySplitCh (sep : Char) : List Char → List (List Char)
  | [] => [[]]
  | c :: r =>
      let rest := pySplitCh sep r
      if c = sep then [] :: rest
      else
        match rest with
        | h :: t => (c :: h) :: t
        | [] => [[c]]

/-- Python `s.split(sep)` for the one-character separators the source
uses (`~`, `|`, `^`). -/
def pySplit (s : String) (sep : Char) : List String :=
  (pySplitCh sep s.data).map fun l => ⟨l⟩

/-- Guarded field access, `parts[i].strip() if len(parts) > i else None`,
the pattern used throughout `FunctionApp.main`. -/
def fld (parts : List String) (i : Nat) : Option String :=
  (parts.get? i).map pystrip

/-- Numeric value of a decimal digit character. -/
def digitVal (c : Char) : Nat := c.toNat - 48

/-- Value of a list of decimal digit characters, most significant first. -/
def natOfDigits (cs : List Char) : Nat :=
  cs.foldl (fun acc c => 10 * acc + digitVal c) 0

/-- Values of Python `decimal.Decimal` as produced by string conversion:
a finite number is a sign, a coefficient and an exponent (`100.00` is
`num false 10000 (-2)`); infinities and (signaling) NaNs with an optional
digit payload complete the type. -/
inductive PyDecimal where
  | num (sign : Bool) (coeff : Nat) (exp : Int)
  | inf (sign : Bool)
  | nan (signaling : Bool) (sign : Bool) (payload : Option Nat)
deriving Repr, DecidableEq

/-- Split a leading run of decimal digits. -/
def takeDigits (cs : List Char) : List Char × List Char :=
  (cs.takeWhile Char.isDigit, cs.dropWhile Char.isDigit)

/-- Optional sign prefix: returns (isNegative, rest). -/
def takeSign (cs : List Char) : Bool × List Char :=
  match cs with
  | '+' :: r => (false, r)
  | '-' :: r => (true, r)
  | r => (false, r)

/-- Python `decimal` numeric-string grammar, applied after whitespace is
stripped and underscores removed (per the `Decimal` constructor docs):
`sign? (digits [. digits?] | . digits) ([eE] sign? digits)?` or a
case-insensitive `Inf`/`Infinity`/`NaN digits?`/`sNaN digits?`.
`none` models the constructor raising `InvalidOperation`.
(Unicode decimal digits, which CPython also accepts, are not modelled;
all inputs considered here are ASCII.) -/
def decimalParse (s : String) : Option PyDecimal :=
  let t := ((pystrip s).data.filter (fun c => c ≠ '_')).map Char.toLower
  let (sign, cs) := takeSign t
  if cs = "inf".data ∨ cs = "infinity".data then
    some (.inf sign)
  else if cs.take 4 = "snan".data ∧ (cs.drop 4).all Char.isDigit then
    some (.nan true sign (if cs.drop 4 = [] then none else some (natOfDigits (cs.drop 4))))
  else if cs.take 3 = "nan".data ∧ (cs.drop 3).all Char.isDigit then
    some (.nan false sign (if cs.drop 3 = [] then none else some (natOfDigits (cs.drop 3))))
  else
    let intPart := (takeDigits cs).1
    let r1 := (takeDigits cs).2
    let fracPart := match r1 with
      | '.' :: r => (takeDigits r).1
      | _ => []
    let afterNum := match r1 with
      | '.' :: r => (takeDigits r).2
      | _ => r1
    if intPart = [] ∧ fracPart = [] then none
    else
      match afterNum with
      | [] => some (.num sign (natOfDigits (intPart ++ fracPart)) (-(fracPart.length : Int)))
      | 'e' :: r3 =>
          let (esign, r4) := takeSign r3
          let (eDigits, r5) := takeDigits r4
          if eDigits = [] ∨ r5 ≠ [] then none
          else
            let ev : Int := if esign then -(natOfDigits eDigits : Int) else (natOfDigits eDigits : Int)
            some (.num sign (natOfDigits (intPart ++ fracPart)) (ev - (fracPart.length : Int)))
      | _ => none

/-- Model of `FunctionApp.dec`: `None` and `""` map to `None`; otherwise
`Decimal(v)`, with `InvalidOperation` caught and mapped to `None`. -/
def dec (v : Option String) : Option PyDecimal :=
  match v with
  | none => none
  | some s => if s = "" then none else decimalParse s

/-- A `datetime.date` value. -/
structure PyDate where
  year : Nat
  month : Nat
  day : Nat
deriving Repr, DecidableEq

/-- Proleptic-Gregorian leap year, as `datetime` uses. -/
def isLeap (y : Nat) : Bool :=
  y % 4 = 0 ∧ (y % 100 ≠ 0 ∨ y % 400 = 0)

/-- Days in a month, as `datetime.date` validates. -/
def daysInMonth (y m : Nat) : Nat :=
  if m = 2 then (if isLeap y then 29 else 28)
  else if m = 4 ∨ m = 6 ∨ m = 9 ∨ m = 11 then 30
  else 31

/-- Constructor `datetime.date(y, m, d)`: `none` models it raising
`ValueError` (`MINYEAR = 1`; month and day range-checked). -/
def mkPyDate (y m d : Nat) : Option PyDate :=
  if 1 ≤ y ∧ y ≤ 9999 ∧ 1 ≤ m ∧ m ≤ 12 ∧ 1 ≤ d ∧ d ≤ daysInMonth y m then
    some ⟨y, m, d⟩
  else none

/-- The alternatives of CPython `_strptime`'s `%m` regex
`1[0-2]|0[1-9]|[1-9]`, in alternation (preference) order; each entry is
the month value and the unconsumed rest. -/
def monthAlts : List Char → List (Nat × List Char)
  | c1 :: c2 :: r =>
      (if c1 = '1' ∧ (c2 = '0' ∨ c2 = '1' ∨ c2 = '2') then [(10 + digitVal c2, r)] else []) ++
      (if c1 = '0' ∧ ('1' ≤ c2 ∧ c2 ≤ '9') then [(digitVal c2, r)] else []) ++
      (if '1' ≤ c1 ∧ c1 ≤ '9' then [(digitVal c1, c2 :: r)] else [])
  | [c1] =>
      if '1' ≤ c1 ∧ c1 ≤ '9' then [(digitVal c1, [])] else []
  | [] => []

/-- The alternatives of CPython `_strptime`'s `%d` regex
`3[01]|[12]\d|0[1-9]|[1-9]`, in alternation order. -/
def dayAlts : List Char → List (Nat × List Char)
  | c1 :: c2 :: r =>
      (if c1 = '3' ∧ (c2 = '0' ∨ c2 = '1') then [(30 + digitVal c2, r)] else []) ++
      (if (c1 = '1' ∨ c1 = '2') ∧ c2.isDigit then [(10 * digitVal c1 + digitVal c2, r)] else []) ++
      (if c1 = '0' ∧ ('1' ≤ c2 ∧ c2 ≤ '9') then [(digitVal c2, r)] else []) ++
      (if '1' ≤ c1 ∧ c1 ≤ '9' then [(digitVal c1, c2 :: r)] else [])
  | [c1] =>
      if '1' ≤ c1 ∧ c1 ≤ '9' then [(digitVal c1, [])] else []
  | [] => []

/-- Backtracking match of the `%m%d` tail of the pattern: month
alternatives are tried in order; for the first month alternative whose
rest admits a day alternative, the first such day alternative completes
the match (the pattern ends there, so the engine backtracks no further).
Returns month, day and the unconsumed leftover. -/
def mdMatch (cs : List Char) : Option (Nat × Nat × List Char) :=
  (monthAlts cs).findSome? fun p =>
    (dayAlts p.2).head?.map fun q => (p.1, q.1, q.2)

/-- Model of `datetime.datetime.strptime(s, "%Y%m%d").date()` with `ValueError`
mapped to `none`: `%Y` is exactly four digits, then the `%m%d` regex
match; a match that does not consume the whole string raises, and the
matched values are range-checked by the `date` constructor. -/
def strptimeYmd (s : String) : Option PyDate :=
  match s.data with
  | c1 :: c2 :: c3 :: c4 :: rest =>
      if c1.isDigit ∧ c2.isDigit ∧ c3.isDigit ∧ c4.isDigit then
        match mdMatch rest with
        | some (m, d, leftover) =>
            if leftover = [] then mkPyDate (natOfDigits [c1, c2, c3, c4]) m d
            else none
        | none => none
      else none
  | _ => none

/-- Model of `FunctionApp.safe_date`: falsy (empty) input maps to `None`; any
`strptime`/`date` failure is caught and maps to `None`. -/
def safe_date (yyyymmdd : String) : Option PyDate :=
  if yyyymmdd = "" then none else strptimeYmd yyyymmdd

/-- Model of `FunctionApp.split_composite` with the component separator `^` it is
called with: a falsy value (absent or empty) yields the empty tuple. -/
def split_composite (val : Option String) : List String :=
  match val with
  | none => []
  | some v => if v = "" then [] else pySplit v '^'

/-- The character of a decimal digit value. -/
def dchar (n : Nat) : Char := Char.ofNat (48 + n)

/-- Full-consumption month/day match: the value `strptime` accepts from
the tail, requiring the regex match to reach the end of the string. -/
def mdFull (cs : List Char) : Option (Nat × Nat) :=
  match mdMatch cs with
  | some (m, d, []) => some (m, d)
  | _ => none

/-- Validity of a year-month-day triple in the sense of
`datetime.date`, with the year range implied by four digits. -/
def validYMD (y m d : Nat) : Prop :=
  1 ≤ y ∧ 1 ≤ m ∧ m ≤ 12 ∧ 1 ≤ d ∧ d ≤ daysInMonth y m

instance (y m d : Nat) : Decidable (validYMD y m d) := by
  unfold validYMD
  infer_instance

namespace FunctionApp

/-- One row of `dbo.edi_835_raw`. -/
structure RawRow where
  segment_type : String
  segment_content : String
  source_file_name : String
  ingestion_timestamp : Nat
deriving Repr, DecidableEq

/-- One row of `dbo.edi_835_claims`; `claim_id` is the surrogate key the
store assigns on insert (`OUTPUT INSERTED.claim_id`). -/
structure ClaimRow where
  claim_id : Nat
  clp_patient_control_number : Option String
  clp_claim_status_code : Option String
  clp_total_charge_amount : Option PyDecimal
  clp_payment_amount : Option PyDecimal
  clp_patient_responsibility : Option PyDecimal
  clp_payer_claim_control_number : Option String
  clp_facility_type_code : Option String
  clp_claim_frequency_code : Option String
  nm1_patient_id : Option String
  nm1_provider_id : Option String
  dtm_service_date : Option PyDate
  source_file_name : String
  ingestion_timestamp : Nat
deriving Repr, DecidableEq

/-- One row of `dbo.edi_835_services`; `claim_id` is nullable because the
insert passes `current_claim_db_id`, which may be `None`.  Columns not in
the insert list (`service_date`, the `cas_*` triple) start as NULL. -/
structure ServiceRow where
  service_id : Nat
  claim_id : Option Nat
  svc_procedure_code : Option String
  svc_charge_amount : Option PyDecimal
  svc_paid_amount : Option PyDecimal
  service_date : Option PyDate
  cas_group_code : Option String
  cas_reason_code : Option String
  cas_adjustment_amount : Option PyDecimal
deriving Repr, DecidableEq

/-- The relational state the run commits against, with the two surrogate
key allocators. -/
structure DB where
  raw : List RawRow
  claims : List ClaimRow
  services : List ServiceRow
  nextClaimId : Nat
  nextServiceId : Nat
deriving Repr, DecidableEq

/-- The empty store. -/
def DB.empty : DB := ⟨[], [], [], 0, 0⟩

/-- The run-local parse context of `FunctionApp.main`:
`current_claim_db_id`, `current_claim_ctx` (its two dict keys), and
`pending_service_id`, plus the two observability counters. -/
structure Ctx where
  current_claim_db_id : Option Nat
  patient_id : Option String
  provider_id : Option String
  pending_service_id : Option Nat
  claims_added : Nat
  services_added : Nat
deriving Repr, DecidableEq

/-- Initial parse context (all `None`, counters zero). -/
def Ctx.init : Ctx := ⟨none, none, none, none, 0, 0⟩

/-- SQL `COALESCE(p, col)`: the parameter when non-null, else the column. -/
def coalesce (p old : Option String) : Option String :=
  match p with
  | some v => some v
  | none => old

/-- Tag of a segment: `parts[0].strip()` after splitting on `|` (equally,
`s.split("|", 1)[0].strip()` as the raw-row pass computes it — the
maxsplit does not change the head). -/
def segTag (seg : String) : String :=
  pystrip ((pySplit seg '|').headD "")

/-- Result of dispatching one segment: the updated store and context,
and the number of `cursor.execute` statements the dispatch issued
(each branch of the source issues at most one). -/
structure StepOut where
  db : DB
  ctx : Ctx
  ops : Nat
deriving Repr, DecidableEq

/-- One iteration of the `for seg in segs` dispatch of
`FunctionApp.main` (lines 75–166), translated branch by branch. -/
def stepSeg (src : String) (now : Nat) (db : DB) (ctx : Ctx) (seg : String) : StepOut :=
  let parts := pySplit seg '|'
  let tag := segTag seg
  if tag = "CLP" then
    -- reset current_claim_db_id and pending_service_id (the context dict
    -- current_claim_ctx is NOT reset), extract, insert, capture identity
    let row : ClaimRow :=
      { claim_id := db.nextClaimId
        clp_patient_control_number := fld parts 1
        clp_claim_status_code := fld parts 2
        clp_total_charge_amount := dec (fld parts 3)
        clp_payment_amount := dec (fld parts 4)
        clp_patient_responsibility := dec (fld parts 5)
        clp_payer_claim_control_number := fld parts 7
        clp_facility_type_code := fld parts 8
        clp_claim_frequency_code := fld parts 9
        nm1_patient_id := ctx.patient_id
        nm1_provider_id := ctx.provider_id
        dtm_service_date := none
        source_file_name := src
        ingestion_timestamp := now }
    ⟨{ db with claims := db.claims ++ [row], nextClaimId := db.nextClaimId + 1 },
     { ctx with current_claim_db_id := some db.nextClaimId
                pending_service_id := none
                claims_added := ctx.claims_added + 1 },
     1⟩
  else if tag = "NM1" then
    let entity := fld parts 1
    let id_val := fld parts 9
    let ctx1 :=
      if entity = some "QC" then { ctx with patient_id := id_val }
      else if entity = some "74" ∨ entity = some "PE" then { ctx with provider_id := id_val }
      else ctx
    if ctx.current_claim_db_id ≠ none ∧
        (entity = some "QC" ∨ entity = some "74" ∨ entity = some "PE") then
      ⟨{ db with claims := db.claims.map fun r =>
            if some r.claim_id = ctx.current_claim_db_id then
              { r with nm1_patient_id := coalesce ctx1.patient_id r.nm1_patient_id
                       nm1_provider_id := coalesce ctx1.provider_id r.nm1_provider_id }
            else r },
       ctx1, 1⟩
    else ⟨db, ctx1, 0⟩
  else if tag = "DTM" then
    if 2 < parts.length then
      let dtm_qual := pystrip (parts.getD 1 "")
      let dtm_val := pystrip (parts.getD 2 "")
      let dt := safe_date dtm_val
      if dtm_qual = "472" ∧ ctx.pending_service_id ≠ none then
        ⟨{ db with services := db.services.map fun r =>
              if some r.service_id = ctx.pending_service_id then
                { r with service_date := dt }
              else r },
         ctx, 1⟩
      else if (dtm_qual = "050" ∨ dtm_qual = "232" ∨ dtm_qual = "233") ∧
          ctx.current_claim_db_id ≠ none then
        ⟨{ db with claims := db.claims.map fun r =>
              if some r.claim_id = ctx.current_claim_db_id then
                { r with dtm_service_date := dt }
              else r },
         ctx, 1⟩
      else ⟨db, ctx, 0⟩
    else ⟨db, ctx, 0⟩
  else if tag = "SVC" then
    let proc_composite := fld parts 1
    let charge_amt := dec (fld parts 2)
    let paid_amt := dec (fld parts 3)
    let pc := split_composite proc_composite
    let svc_procedure_code := if 2 ≤ pc.length then pc.get? 1 else none
    let row : ServiceRow :=
      { service_id := db.nextServiceId
        claim_id := ctx.current_claim_db_id
        svc_procedure_code := svc_procedure_code
        svc_charge_amount := charge_amt
        svc_paid_amount := paid_amt
        service_date := none
        cas_group_code := none
        cas_reason_code := none
        cas_adjustment_amount := none }
    ⟨{ db with services := db.services ++ [row], nextServiceId := db.nextServiceId + 1 },
     { ctx with pending_service_id := some db.nextServiceId
                services_added := ctx.services_added + 1 },
     1⟩
  else if tag = "CAS" ∧ ctx.pending_service_id ≠ none then
    let cas_group := fld parts 1
    let cas_reason := fld parts 2
    let cas_amt := dec (fld parts 3)
    ⟨{ db with services := db.services.map fun r =>
          if some r.service_id = ctx.pending_service_id then
            { r with cas_group_code := cas_group
                     cas_reason_code := cas_reason
                     cas_adjustment_amount := cas_amt }
          else r },
     ctx, 1⟩
  else ⟨db, ctx, 0⟩

/-- Tokenization of the blob (line 30): split on `~`, drop segments that
are empty after stripping. -/
def pySegs (content : String) : List String :=
  (pySplit content '~').filter fun s => pystrip s ≠ ""

/-- The raw audit row built for a segment (lines 55–57). -/
def rawOf (src : String) (now : Nat) (s : String) : RawRow :=
  ⟨segTag s, s, src, now⟩

/-- The failure-free segment loop: fold `stepSeg` left to right. -/
def runPure (src : String) (now : Nat) : DB → Ctx → List String → DB × Ctx
  | db, ctx, [] => (db, ctx)
  | db, ctx, seg :: rest =>
      let o := stepSeg src now db ctx seg
      runPure src now o.db o.ctx rest

/-- The segment loop against a fallible store: `fail k` says whether the
`k`-th statement the connection executes raises.  A segment that issues
a statement consults the oracle; a raising statement aborts the loop
(the exception propagates out of `for`). -/
def runLoop (fail : Nat → Bool) (src : String) (now : Nat) :
    Nat → DB → Ctx → List String → Except Unit (Nat × DB × Ctx)
  | k, db, ctx, [] => .ok (k, db, ctx)
  | k, db, ctx, seg :: rest =>
      let o := stepSeg src now db ctx seg
      if o.ops ≠ 0 ∧ fail k then .error ()
      else runLoop fail src now (k + o.ops) o.db o.ctx rest

/-- Terminal outcome of one invocation of `FunctionApp.main`: an early
normal return when the connection string is falsy (lines 36–39), a
normal completion with the three logged counters (line 170), or a
re-raised exception (lines 174–179). -/
inductive Outcome where
  | noConfig
  | success (claims_added services_added raw_rows : Nat)
  | failure
deriving Repr, DecidableEq

/-- Number of segments with a given tag. -/
def countTag (t : String) (segs : List String) : Nat :=
  (segs.filter fun s => segTag s == t).length

/-- A sample claim row with both entity identifiers and a date set. -/
def sampleClaim : ClaimRow :=
  ⟨0, some "A", none, none, none, none, none, none, none,
   some "P", some "Q", some ⟨2023, 1, 1⟩, "f", 0⟩

/-- A store holding just `sampleClaim`. -/
def sampleDb : DB := ⟨[], [sampleClaim], [], 1, 0⟩

/-- Referential soundness: every service row is keyed by null (the
orphan sentinel) or by the identity of a claim row present in the
store, and the open-claim pointer is null or denotes a present claim
row. -/
def RefOk (db : DB) (ctx : Ctx) : Prop :=
  (∀ s ∈ db.services, s.claim_id = none ∨ ∃ c ∈ db.claims, some c.claim_id = s.claim_id)
  ∧ (ctx.current_claim_db_id = none
      ∨ ∃ c ∈ db.claims, some c.claim_id = ctx.current_claim_db_id)

/-- The oracle of a store that never fails. -/
def noFail : Nat → Bool := fun _ => false

/-- Model of `FunctionApp.main`.  `conn` is `os.environ.get(...)`; `db`
is the committed store the transaction runs against.  Statement indices
consulted on `fail`: 0 = `pyodbc.connect`, 1 = the `SELECT @@VERSION`
probe, 2 = the raw `executemany` (skipped when there are no raw rows),
then one per issuing segment, finally `cn.commit()`.  With
`autocommit = False`, a single `commit` after the loop, exceptions
re-raised and the connection closed in `finally`, an aborted run leaves
the committed store unchanged: every error path returns `db` itself. -/
def main835 (fail : Nat → Bool) (conn : Option String) (src : String) (now : Nat)
    (content : String) (db : DB) : Outcome × DB :=
  match conn with
  | none => (.noConfig, db)
  | some c =>
    if c = "" then (.noConfig, db)
    else if fail 0 then (.failure, db)
    else if fail 1 then (.failure, db)
    else
      let segs := pySegs content
      let raw_rows := segs.map (rawOf src now)
      if raw_rows ≠ [] ∧ fail 2 then (.failure, db)
      else
        let k0 := if raw_rows = [] then 2 else 3
        let db1 := { db with raw := db.raw ++ raw_rows }
        match runLoop fail src now k0 db1 Ctx.init segs with
        | .error _ => (.failure, db)
        | .ok (k, db2, ctx) =>
            if fail k then (.failure, db)
            else (.success ctx.claims_added ctx.services_added raw_rows.length, db2)

end FunctionApp

/-- Values Python `float(str)` can produce.  The finite case carries the
decimal literal exactly (sign, coefficient, power-of-ten exponent);
IEEE-754 rounding is not modelled — no claim below relies on the rounded
magnitude, only on whether the conversion succeeds or raises
`ValueError`. -/
inductive PyFloat where
  | finite (sign : Bool) (coeff : Nat) (exp : Int)
  | inf (sign : Bool)
  | nan
deriving Repr, DecidableEq

/-- Scan a maximal run of digits and underscores. -/
def runScan (cs : List Char) : List Char × List Char :=
  (cs.takeWhile (fun c => c.isDigit ∨ c = '_'), cs.dropWhile (fun c => c.isDigit ∨ c = '_'))

/-- Check a digit/underscore run has every underscore strictly between
two digits (the PEP 515 rule `float` enforces). -/
def okRunAux : List Char → Bool
  | [] => true
  | ['_'] => false
  | '_' :: c :: r => c.isDigit && okRunAux (c :: r)
  | _ :: r => okRunAux r

/-- A possibly-empty run is valid when it does not start with an
underscore and every underscore sits between digits. -/
def okRun (cs : List Char) : Bool :=
  match cs with
  | '_' :: _ => false
  | _ => okRunAux cs

/-- Model of Python `float(str)`: strip whitespace, case-insensitive
`inf`/`infinity`/`nan`, or a decimal literal
`sign? (digits [. digits?] | . digits) ([e] sign? digits)?` with
underscores allowed between digits; `none` models `ValueError`. -/
def pyFloat (s : String) : Option PyFloat :=
  let t := (pystrip s).data.map Char.toLower
  let sp := takeSign t
  let sign := sp.1
  let cs := sp.2
  if cs = "inf".data ∨ cs = "infinity".data then some (.inf sign)
  else if cs = "nan".data then some .nan
  else
    let intRun := (runScan cs).1
    let r1 := (runScan cs).2
    let fracRun := match r1 with
      | '.' :: r => (runScan r).1
      | _ => []
    let afterNum := match r1 with
      | '.' :: r => (runScan r).2
      | _ => r1
    if ¬ (okRun intRun ∧ okRun fracRun) then none
    else
      let intD := intRun.filter Char.isDigit
      let fracD := fracRun.filter Char.isDigit
      if intD = [] ∧ fracD = [] then none
      else
        let coeff := natOfDigits (intD ++ fracD)
        match afterNum with
        | [] => some (.finite sign coeff (-(fracD.length : Int)))
        | 'e' :: r3 =>
            let esp := takeSign r3
            let eRun := (runScan esp.2).1
            let eRest := (runScan esp.2).2
            if eRun = [] ∨ ¬ okRun eRun ∨ eRest ≠ [] then none
            else
              let ev : Int :=
                if esp.1 then -(natOfDigits (eRun.filter Char.isDigit) : Int)
                else (natOfDigits (eRun.filter Char.isDigit) : Int)
              some (.finite sign coeff (ev - (fracD.length : Int)))
        | _ => none

/-- Structural prefix test on character lists (Python `str.startswith`). -/
def listStartsWith : List Char → List Char → Bool
  | [], _ => true
  | _ :: _, [] => false
  | p :: ps, c :: cs => p = c && listStartsWith ps cs

namespace BlobInit

/-- Exceptions the placeholder parser can raise. -/
inductive PyExn where
  | indexError
  | valueError
deriving Repr, DecidableEq

/-- One entry of the `claims` list `parse_edi` builds. -/
structure EdiClaim where
  claim_id : String
  amount : PyFloat
deriving Repr, DecidableEq

/-- Loop body of `parse_edi` in `src/BlobTriggerFunction/__init__.py`:
for each `~`-separated line starting with `CLP`, read `parts[1]`
(raising `IndexError` when absent), convert `float(parts[3])` (raising
`IndexError` when absent, `ValueError` when malformed) and append. -/
def parse_edi_go : List EdiClaim → List String → Except PyExn (List EdiClaim)
  | acc, [] => .ok acc
  | acc, line :: rest =>
      if listStartsWith "CLP".data line.data then
        let parts := pySplit line '|'
        match parts.get? 1 with
        | none => .error .indexError
        | some cid =>
            match parts.get? 3 with
            | none => .error .indexError
            | some a =>
                match pyFloat a with
                | none => .error .valueError
                | some q => parse_edi_go (acc ++ [⟨cid, q⟩]) rest
      else parse_edi_go acc rest

/-- Model of `parse_edi`: split the text on `~` and run the loop; the
`Except` layer records the exceptions the Python function can raise
(nothing in `parse_edi` catches them). -/
def parse_edi (edi_text : String) : Except PyExn (List EdiClaim) :=
  parse_edi_go [] (pySplit edi_text '~')

end BlobInit

/-- Decidable equality for `Except`, used to compute with `parse_edi`. -/
instance instDecEqExcept {ε α : Type} [DecidableEq ε] [DecidableEq α] :
    DecidableEq (Except ε α) := fun x y =>
  match x, y with
  | .error a, .error b =>
      if h : a = b then .isTrue (congrArg Except.error h)
      else .isFalse fun hh => h (Except.error.inj hh)
  | .ok a, .ok b =>
      if h : a = b then .isTrue (congrArg Except.ok h)
      else .isFalse fun hh => h (Except.ok.inj hh)
  | .error _, .ok _ => .isFalse fun hh => Except.noConfusion hh
  | .ok _, .error _ => .isFalse fun hh => Except.noConfusion hh

namespace FunctionApp

theorem stepSeg_raw_eq (src : String) (now : Nat) (db : DB) (ctx : Ctx) (seg : String) :
    (stepSeg src now db ctx seg).db.raw = db.raw := by
  simp only [stepSeg]
  split_ifs <;> rfl

theorem stepSeg_claims_len (src : String) (now : Nat) (db : DB) (ctx : Ctx) (seg : String) :
    (stepSeg src now db ctx seg).db.claims.length
      = db.claims.length + (if segTag seg = "CLP" then 1 else 0) := by
  simp only [stepSeg]
  split_ifs <;> simp_all [List.length_append, List.length_map]

theorem stepSeg_claims_added (src : String) (now : Nat) (db : DB) (ctx : Ctx) (seg : String) :
    (stepSeg src now db ctx seg).ctx.claims_added
      = ctx.claims_added + (if segTag seg = "CLP" then 1 else 0) := by
  simp only [stepSeg]
  split_ifs <;> simp_all

theorem stepSeg_services_len (src : String) (now : Nat) (db : DB) (ctx : Ctx) (seg : String) :
    (stepSeg src now db ctx seg).db.services.length
      = db.services.length + (if segTag seg = "SVC" then 1 else 0) := by
  simp only [stepSeg]
  split_ifs <;> simp_all [List.length_append, List.length_map]

theorem stepSeg_services_added (src : String) (now : Nat) (db : DB) (ctx : Ctx) (seg : String) :
    (stepSeg src now db ctx seg).ctx.services_added
      = ctx.services_added + (if segTag seg = "SVC" then 1 else 0) := by
  simp only [stepSeg]
  split_ifs <;> simp_all

theorem runPure_raw_eq (src : String) (now : Nat) :
    ∀ (segs : List String) (db : DB) (ctx : Ctx),
      (runPure src now db ctx segs).1.raw = db.raw
  | [], _, _ => rfl
  | seg :: rest, db, ctx => by
      rw [runPure, runPure_raw_eq src now rest, stepSeg_raw_eq]

theorem runPure_claims_len (src : String) (now : Nat) :
    ∀ (segs : List String) (db : DB) (ctx : Ctx),
      (runPure src now db ctx segs).1.claims.length
        = db.claims.length + countTag "CLP" segs
  | [], _, _ => by simp [runPure, countTag]
  | seg :: rest, db, ctx => by
      rw [runPure, runPure_claims_len src now rest, stepSeg_claims_len]
      simp only [countTag, List.filter_cons]
      split_ifs with h h' h' <;> simp_all [countTag] <;> omega

theorem runPure_claims_added (src : String) (now : Nat) :
    ∀ (segs : List String) (db : DB) (ctx : Ctx),
      (runPure src now db ctx segs).2.claims_added
        = ctx.claims_added + countTag "CLP" segs
  | [], _, _ => by simp [runPure, countTag]
  | seg :: rest, db, ctx => by
      rw [runPure, runPure_claims_added src now rest, stepSeg_claims_added]
      simp only [countTag, List.filter_cons]
      split_ifs with h h' h' <;> simp_all [countTag] <;> omega

theorem runPure_services_len (src : String) (now : Nat) :
    ∀ (segs : List String) (db : DB) (ctx : Ctx),
      (runPure src now db ctx segs).1.services.length
        = db.services.length + countTag "SVC" segs
  | [], _, _ => by simp [runPure, countTag]
  | seg :: rest, db, ctx => by
      rw [runPure, runPure_services_len src now rest, stepSeg_services_len]
      simp only [countTag, List.filter_cons]
      split_ifs with h h' h' <;> simp_all [countTag] <;> omega

theorem runPure_services_added (src : String) (now : Nat) :
    ∀ (segs : List String) (db : DB) (ctx : Ctx),
      (runPure src now db ctx segs).2.services_added
        = ctx.services_added + countTag "SVC" segs
  | [], _, _ => by simp [runPure, countTag]
  | seg :: rest, db, ctx => by
      rw [runPure, runPure_services_added src now rest, stepSeg_services_added]
      simp only [countTag, List.filter_cons]
      split_ifs with h h' h' <;> simp_all [countTag] <;> omega

/-- With a never-failing store the loop cannot abort and computes the
pure fold. -/
theorem runLoop_noFail (src : String) (now : Nat) :
    ∀ (segs : List String) (k : Nat) (db : DB) (ctx : Ctx),
      ∃ k', runLoop noFail src now k db ctx segs
              = .ok (k', (runPure src now db ctx segs).1, (runPure src now db ctx segs).2)
  | [], k, _, _ => ⟨k, rfl⟩
  | seg :: rest, k, db, ctx => by
      have ih := runLoop_noFail src now rest
        (k + (stepSeg src now db ctx seg).ops)
        (stepSeg src now db ctx seg).db (stepSeg src now db ctx seg).ctx
      obtain ⟨k', hk⟩ := ih
      exact ⟨k', by simp [runLoop, noFail, runPure, hk]⟩

/-- A loop that completes computed the pure fold (failures can abort the
loop but never silently change what a completed loop did). -/
theorem runLoop_ok_pure (fail : Nat → Bool) (src : String) (now : Nat) :
    ∀ (segs : List String) (k : Nat) (db : DB) (ctx : Ctx) (k' : Nat) (db' : DB) (ctx' : Ctx),
      runLoop fail src now k db ctx segs = .ok (k', db', ctx') →
      (db', ctx') = runPure src now db ctx segs
  | [], k, db, ctx, k', db', ctx', h => by
      simp only [runLoop] at h
      cases h
      rfl
  | seg :: rest, k, db, ctx, k', db', ctx', h => by
      simp only [runLoop] at h
      split_ifs at h
      exact runLoop_ok_pure fail src now rest _ _ _ _ _ _ h

end FunctionApp

namespace FunctionApp

/-- A completed no-failure run always reports plain success with one
count per CLP segment, per SVC segment and per non-empty segment, and
grows the store by exactly those counts — independent of what the store
already contains.  There is no content-fingerprint consultation anywhere
in the control flow. -/
theorem main835_noFail_spec (c src : String) (now : Nat) (content : String) (db : DB)
    (hc : c ≠ "") :
    ∃ db', main835 noFail (some c) src now content db
        = (.success (countTag "CLP" (pySegs content)) (countTag "SVC" (pySegs content))
            (pySegs content).length, db')
      ∧ db'.claims.length = db.claims.length + countTag "CLP" (pySegs content)
      ∧ db'.services.length = db.services.length + countTag "SVC" (pySegs content)
      ∧ db'.raw.length = db.raw.length + (pySegs content).length := by
  obtain ⟨k', hk⟩ := runLoop_noFail src now (pySegs content)
    (if (pySegs content).map (rawOf src now) = [] then 2 else 3)
    { db with raw := db.raw ++ (pySegs content).map (rawOf src now) } Ctx.init
  refine ⟨(runPure src now { db with raw := db.raw ++ (pySegs content).map (rawOf src now) }
    Ctx.init (pySegs content)).1, ?_, ?_, ?_, ?_⟩
  · simp only [main835, noFail, if_neg hc, Bool.false_eq_true, if_false, and_false, hk]
    rw [runPure_claims_added, runPure_services_added]
    simp [List.length_map, Ctx.init]
  · rw [runPure_claims_len]
  · rw [runPure_services_len]
  · rw [runPure_raw_eq]
    simp [List.length_append, List.length_map]

end FunctionApp

namespace FunctionApp

/-- C1, counterexample: ingesting the byte-identical content `CLP|A~`
twice makes the second run insert one further claim row (two in total)
and one further raw row, and report plain success counts — the claimed
"zero new rows / already ingested" behaviour does not exist; there is no
deduplication check before the inserts. -/
theorem c1_second_ingest_inserts_again :
    (main835 noFail (some "cs") "f" 0 "CLP|A~"
        (main835 noFail (some "cs") "f" 0 "CLP|A~" DB.empty).2).1
      = .success 1 0 1
    ∧ (main835 noFail (some "cs") "f" 0 "CLP|A~"
        (main835 noFail (some "cs") "f" 0 "CLP|A~" DB.empty).2).2.claims.length = 2
    ∧ (main835 noFail (some "cs") "f" 0 "CLP|A~" DB.empty).2.claims.length = 1 := by
  decide

/-- C1 (amended): ingestion performs no content-fingerprint
deduplication; a failure-free run always reports plain success with the
per-content counts (one raw row per non-empty segment, one claim per
CLP segment, one service per SVC segment) and inserts exactly those
rows again, regardless of what the store already contains — so
re-ingesting byte-identical content repeats every insert instead of
short-circuiting to "already ingested". -/
theorem c1_ingest_repeats_inserts (c src : String) (now : Nat) (content : String)
    (db : DB) (hc : c ≠ "") :
    ∃ db', main835 noFail (some c) src now content db
        = (.success (countTag "CLP" (pySegs content)) (countTag "SVC" (pySegs content))
            (pySegs content).length, db')
      ∧ db'.claims.length = db.claims.length + countTag "CLP" (pySegs content)
      ∧ db'.services.length = db.services.length + countTag "SVC" (pySegs content)
      ∧ db'.raw.length = db.raw.length + (pySegs content).length :=
  main835_noFail_spec c src now content db hc

/-- Witness for `c1_ingest_repeats_inserts` at a concrete input. -/
theorem c1_ingest_repeats_inserts_witness :
    ∃ db', main835 noFail (some "cs") "f" 0 "CLP|A~SVC|X|1|1~" DB.empty
        = (.success (countTag "CLP" (pySegs "CLP|A~SVC|X|1|1~"))
            (countTag "SVC" (pySegs "CLP|A~SVC|X|1|1~"))
            (pySegs "CLP|A~SVC|X|1|1~").length, db')
      ∧ db'.claims.length = DB.empty.claims.length + countTag "CLP" (pySegs "CLP|A~SVC|X|1|1~")
      ∧ db'.services.length = DB.empty.services.length + countTag "SVC" (pySegs "CLP|A~SVC|X|1|1~")
      ∧ db'.raw.length = DB.empty.raw.length + (pySegs "CLP|A~SVC|X|1|1~").length :=
  c1_ingest_repeats_inserts "cs" "f" 0 "CLP|A~SVC|X|1|1~" DB.empty (by decide)

/-- C9 (confirmed): on the spec's worked example the run reports one
claim, one service and three raw rows, and the inserted rows carry
exactly the attribute values the spec lists (patient control number
`ABC123`, charge 100.00, payment 80.00, patient responsibility 20.00;
procedure `A0428`, charge 100.00, paid 80.00, adjustment CO/45/20.00). -/
theorem c9_spec_example_run :
    main835 noFail (some "cs") "file" 0
      "CLP|ABC123|1|100.00|80.00|20.00|||11||~SVC|HC^A0428^RJ|100.00|80.00~CAS|CO|45|20.00~"
      DB.empty
    = (.success 1 1 3,
       { raw := [⟨"CLP", "CLP|ABC123|1|100.00|80.00|20.00|||11||", "file", 0⟩,
                 ⟨"SVC", "SVC|HC^A0428^RJ|100.00|80.00", "file", 0⟩,
                 ⟨"CAS", "CAS|CO|45|20.00", "file", 0⟩],
         claims := [{ claim_id := 0
                      clp_patient_control_number := some "ABC123"
                      clp_claim_status_code := some "1"
                      clp_total_charge_amount := some (.num false 10000 (-2))
                      clp_payment_amount := some (.num false 8000 (-2))
                      clp_patient_responsibility := some (.num false 2000 (-2))
                      clp_payer_claim_control_number := some ""
                      clp_facility_type_code := some "11"
                      clp_claim_frequency_code := some ""
                      nm1_patient_id := none
                      nm1_provider_id := none
                      dtm_service_date := none
                      source_file_name := "file"
                      ingestion_timestamp := 0 }],
         services := [{ service_id := 0
                        claim_id := some 0
                        svc_procedure_code := some "A0428"
                        svc_charge_amount := some (.num false 10000 (-2))
                        svc_paid_amount := some (.num false 8000 (-2))
                        service_date := none
                        cas_group_code := some "CO"
                        cas_reason_code := some "45"
                        cas_adjustment_amount := some (.num false 2000 (-2)) }],
         nextClaimId := 1
         nextServiceId := 1 }) := by
  decide

/-- C10 (confirmed): when the connection-string setting is absent the
function logs and returns normally — the store is untouched, no counts
are reported and no error is raised, whatever the input and whatever the
store would have done. -/
theorem c10_missing_conn_silent_return (fail : Nat → Bool) (src : String) (now : Nat)
    (content : String) (db : DB) :
    main835 fail none src now content db = (.noConfig, db) := rfl

end FunctionApp

/-- C4 (code bug): the placeholder parser `parse_edi` in
`src/BlobTriggerFunction/__init__.py` raises `IndexError` on the input
`CLP` — a truncated claim segment — instead of treating the missing
fields as absent; parsing is not total over all input texts. -/
theorem c4_parse_edi_truncated_clp_raises :
    BlobInit.parse_edi "CLP" = .error .indexError := by decide

namespace FunctionApp

theorem coalesce_isSome (a b : Option String) (h : b.isSome) : (coalesce a b).isSome := by
  cases a <;> simp_all [coalesce]

/-- C2, counterexample: in
`NM1|QC|1|DOE|JOHN|||||MEM1~CLP|A~CLP|B~` the two claim-open segments
are consecutive and claim `B` has no entity segment of its own, yet its
row is inserted with `nm1_patient_id = MEM1` — the claim-open handler
does not reset the patient/provider context. -/
theorem c2_second_claim_inherits_patient :
    ((main835 noFail (some "cs") "f" 0 "NM1|QC|1|DOE|JOHN|||||MEM1~CLP|A~CLP|B~"
        DB.empty).2.claims.map fun c => (c.clp_patient_control_number, c.nm1_patient_id))
      = [(some "A", some "MEM1"), (some "B", some "MEM1")] := by
  decide

/-- C2 (amended): a claim-open segment resets `current_claim_db_id`
(to the identity of the claim it inserts) and `pending_service_id`, but
leaves the patient/provider context untouched, and the new Claim row is
inserted with the ambient context values — so a claim-open inherits any
patient/provider identifiers set earlier in the run rather than
starting from absent. -/
theorem c2_clp_keeps_entity_context (src : String) (now : Nat) (db : DB) (ctx : Ctx)
    (seg : String) (h : segTag seg = "CLP") :
    (stepSeg src now db ctx seg).ctx.pending_service_id = none
  ∧ (stepSeg src now db ctx seg).ctx.current_claim_db_id = some db.nextClaimId
  ∧ (stepSeg src now db ctx seg).ctx.patient_id = ctx.patient_id
  ∧ (stepSeg src now db ctx seg).ctx.provider_id = ctx.provider_id
  ∧ ∃ row, (stepSeg src now db ctx seg).db.claims = db.claims ++ [row]
      ∧ row.nm1_patient_id = ctx.patient_id
      ∧ row.nm1_provider_id = ctx.provider_id := by
  simp only [stepSeg, h]
  exact ⟨rfl, rfl, rfl, rfl, _, rfl, rfl, rfl⟩

/-- Witness for `c2_clp_keeps_entity_context` on a concrete segment and
a context carrying a patient identifier. -/
theorem c2_clp_keeps_entity_context_witness :
    (stepSeg "f" 0 DB.empty { Ctx.init with patient_id := some "MEM1" } "CLP|A").ctx.pending_service_id = none
  ∧ (stepSeg "f" 0 DB.empty { Ctx.init with patient_id := some "MEM1" } "CLP|A").ctx.current_claim_db_id = some DB.empty.nextClaimId
  ∧ (stepSeg "f" 0 DB.empty { Ctx.init with patient_id := some "MEM1" } "CLP|A").ctx.patient_id = ({ Ctx.init with patient_id := some "MEM1" } : Ctx).patient_id
  ∧ (stepSeg "f" 0 DB.empty { Ctx.init with patient_id := some "MEM1" } "CLP|A").ctx.provider_id = ({ Ctx.init with patient_id := some "MEM1" } : Ctx).provider_id
  ∧ ∃ row, (stepSeg "f" 0 DB.empty { Ctx.init with patient_id := some "MEM1" } "CLP|A").db.claims = DB.empty.claims ++ [row]
      ∧ row.nm1_patient_id = ({ Ctx.init with patient_id := some "MEM1" } : Ctx).patient_id
      ∧ row.nm1_provider_id = ({ Ctx.init with patient_id := some "MEM1" } : Ctx).provider_id :=
  c2_clp_keeps_entity_context "f" 0 DB.empty { Ctx.init with patient_id := some "MEM1" } "CLP|A" (by decide)

/-- C3, counterexample: on `CLP|A~DTM|232|20230101~` the claim's
service date is patched to 2023-01-01, and appending the malformed
claim-level date segment `DTM|232|BAD~` overwrites it back to null —
the claim-level date patch does not skip null overwrites. -/
theorem c3_date_patch_regresses_to_null :
    ((main835 noFail (some "cs") "f" 0 "CLP|A~DTM|232|20230101~" DB.empty).2.claims.map
        fun c => c.dtm_service_date) = [some ⟨2023, 1, 1⟩]
  ∧ ((main835 noFail (some "cs") "f" 0 "CLP|A~DTM|232|20230101~DTM|232|BAD~" DB.empty).2.claims.map
        fun c => c.dtm_service_date) = [none] := by
  decide

/-- C3 (amended): no dispatch step ever regresses a claim row's
`nm1_patient_id` or `nm1_provider_id` from non-null to null (the entity
patch goes through COALESCE), but the claim-level date patch sets
`dtm_service_date` to the newly parsed value unconditionally — including
to null when the date field is malformed. -/
theorem c3_entity_patch_keeps_ids_date_patch_overwrites :
    (∀ (src : String) (now : Nat) (db : DB) (ctx : Ctx) (seg : String) (i : Nat)
        (r r' : ClaimRow),
        db.claims.get? i = some r →
        (stepSeg src now db ctx seg).db.claims.get? i = some r' →
        (r.nm1_patient_id.isSome → r'.nm1_patient_id.isSome)
        ∧ (r.nm1_provider_id.isSome → r'.nm1_provider_id.isSome))
  ∧ (∀ (src : String) (now : Nat) (db : DB) (ctx : Ctx) (seg : String) (cid i : Nat)
        (r : ClaimRow),
        segTag seg = "DTM" →
        2 < (pySplit seg '|').length →
        (pystrip ((pySplit seg '|').getD 1 "") = "050"
          ∨ pystrip ((pySplit seg '|').getD 1 "") = "232"
          ∨ pystrip ((pySplit seg '|').getD 1 "") = "233") →
        ctx.current_claim_db_id = some cid →
        db.claims.get? i = some r → r.claim_id = cid →
        (stepSeg src now db ctx seg).db.claims.get? i
          = some { r with dtm_service_date := (safe_date
              (pystrip ((pySplit seg '|').getD 2 ""))) }) := by
  constructor
  · intro src now db ctx seg i r r' hr hr'
    have hlen : i < db.claims.length := (List.get?_eq_some.mp hr).1
    revert hr'
    simp only [stepSeg]
    split_ifs <;> intro hr' <;> dsimp only at hr' <;>
      first
        | (rw [List.get?_append hlen, hr] at hr'
           injection hr' with hh
           subst hh
           exact ⟨id, id⟩)
        | (rw [List.get?_map, hr] at hr'
           injection hr' with hh
           subst hh
           dsimp only
           split_ifs <;>
             first
               | exact ⟨fun h => coalesce_isSome _ _ h, fun h => coalesce_isSome _ _ h⟩
               | exact ⟨id, id⟩)
        | (rw [hr] at hr'
           injection hr' with hh
           subst hh
           exact ⟨id, id⟩)
  · intro src now db ctx seg cid i r htag hlen2 hqual hcid hr hrid
    have hpend : ¬ (pystrip ((pySplit seg '|').getD 1 "") = "472"
        ∧ ctx.pending_service_id ≠ none) := by
      rcases hqual with h1 | h1 | h1 <;> rw [h1] <;> simp
    have hclaimq : (pystrip ((pySplit seg '|').getD 1 "") = "050"
        ∨ pystrip ((pySplit seg '|').getD 1 "") = "232"
        ∨ pystrip ((pySplit seg '|').getD 1 "") = "233")
        ∧ ctx.current_claim_db_id ≠ none := ⟨hqual, by rw [hcid]; simp⟩
    have hA : ¬ (segTag seg = "CLP") := by rw [htag]; decide
    have hB : ¬ (segTag seg = "NM1") := by rw [htag]; decide
    simp only [stepSeg]
    rw [if_neg hA, if_neg hB, if_pos htag, if_pos hlen2, if_neg hpend, if_pos hclaimq]
    rw [List.get?_map, hr]
    rw [Option.map_some']
    rw [if_pos (by rw [hrid, hcid])]

end FunctionApp

namespace FunctionApp

/-- Witness for `c3_entity_patch_keeps_ids_date_patch_overwrites` at
concrete segments (an entity patch and a malformed claim-level date). -/
theorem c3_entity_patch_keeps_ids_date_patch_overwrites_witness :
    ((sampleClaim.nm1_patient_id.isSome →
        ({ sampleClaim with nm1_patient_id := some "P2" } : ClaimRow).nm1_patient_id.isSome)
      ∧ (sampleClaim.nm1_provider_id.isSome →
        ({ sampleClaim with nm1_patient_id := some "P2" } : ClaimRow).nm1_provider_id.isSome))
  ∧ (stepSeg "f" 0 sampleDb { Ctx.init with current_claim_db_id := some 0 }
        "DTM|232|BAD").db.claims.get? 0
      = some { sampleClaim with dtm_service_date := (safe_date
          (pystrip ((pySplit "DTM|232|BAD" '|').getD 2 ""))) } :=
  ⟨c3_entity_patch_keeps_ids_date_patch_overwrites.1 "f" 0 sampleDb
      { Ctx.init with current_claim_db_id := some 0 } "NM1|QC|1|D|J|||||P2" 0 sampleClaim
      { sampleClaim with nm1_patient_id := some "P2" } (by decide) (by decide),
   c3_entity_patch_keeps_ids_date_patch_overwrites.2 "f" 0 sampleDb
      { Ctx.init with current_claim_db_id := some 0 } "DTM|232|BAD" 0 0 sampleClaim
      (by decide) (by decide) (Or.inr (Or.inl (by decide))) rfl (by decide) rfl⟩

end FunctionApp

namespace FunctionApp

/-- Effect of a service-line segment: append one service row owned by
the current claim (possibly `none`), allocate its identity, point
`pending_service_id` at it. -/
theorem stepSeg_svc (src : String) (now : Nat) (db : DB) (ctx : Ctx) (seg : String)
    (h : segTag seg = "SVC") :
    (stepSeg src now db ctx seg).db.services = db.services ++
      [⟨db.nextServiceId, ctx.current_claim_db_id,
        (if 2 ≤ (split_composite (fld (pySplit seg '|') 1)).length
          then (split_composite (fld (pySplit seg '|') 1)).get? 1 else none),
        dec (fld (pySplit seg '|') 2), dec (fld (pySplit seg '|') 3),
        none, none, none, none⟩]
  ∧ (stepSeg src now db ctx seg).db.claims = db.claims
  ∧ (stepSeg src now db ctx seg).db.raw = db.raw
  ∧ (stepSeg src now db ctx seg).db.nextServiceId = db.nextServiceId + 1
  ∧ (stepSeg src now db ctx seg).ctx.pending_service_id = some db.nextServiceId
  ∧ (stepSeg src now db ctx seg).ctx.current_claim_db_id = ctx.current_claim_db_id := by
  have hA : ¬ (segTag seg = "CLP") := by rw [h]; decide
  have hB : ¬ (segTag seg = "NM1") := by rw [h]; decide
  have hC : ¬ (segTag seg = "DTM") := by rw [h]; decide
  simp only [stepSeg]
  rw [if_neg hA, if_neg hB, if_neg hC, if_pos h]
  exact ⟨rfl, rfl, rfl, rfl, rfl, rfl⟩

/-- Effect of an adjustment segment when a service is pending: map the
adjustment triple onto exactly the rows keyed by the pending identity. -/
theorem stepSeg_cas (src : String) (now : Nat) (db : DB) (ctx : Ctx) (seg : String)
    (h : segTag seg = "CAS") (sid : Nat) (hp : ctx.pending_service_id = some sid) :
    stepSeg src now db ctx seg =
      ⟨{ db with services := db.services.map fun r =>
            if some r.service_id = some sid then
              { r with cas_group_code := fld (pySplit seg '|') 1
                       cas_reason_code := fld (pySplit seg '|') 2
                       cas_adjustment_amount := dec (fld (pySplit seg '|') 3) }
            else r },
       ctx, 1⟩ := by
  have hA : ¬ (segTag seg = "CLP") := by rw [h]; decide
  have hB : ¬ (segTag seg = "NM1") := by rw [h]; decide
  have hC : ¬ (segTag seg = "DTM") := by rw [h]; decide
  have hD : ¬ (segTag seg = "SVC") := by rw [h]; decide
  have hE : segTag seg = "CAS" ∧ ctx.pending_service_id ≠ none := by
    rw [h, hp]; exact ⟨rfl, by simp⟩
  simp only [stepSeg]
  rw [if_neg hA, if_neg hB, if_neg hC, if_neg hD, if_pos hE, hp]

/-- Effect of an adjustment segment when no service is pending: nothing. -/
theorem stepSeg_cas_none (src : String) (now : Nat) (db : DB) (ctx : Ctx) (seg : String)
    (h : segTag seg = "CAS") (hp : ctx.pending_service_id = none) :
    stepSeg src now db ctx seg = ⟨db, ctx, 0⟩ := by
  have hA : ¬ (segTag seg = "CLP") := by rw [h]; decide
  have hB : ¬ (segTag seg = "NM1") := by rw [h]; decide
  have hC : ¬ (segTag seg = "DTM") := by rw [h]; decide
  have hD : ¬ (segTag seg = "SVC") := by rw [h]; decide
  have hE : ¬ (segTag seg = "CAS" ∧ ctx.pending_service_id ≠ none) := by
    rw [h, hp]; simp
  simp only [stepSeg]
  rw [if_neg hA, if_neg hB, if_neg hC, if_neg hD, if_neg hE]

end FunctionApp

namespace FunctionApp

/-- C6 (confirmed): an adjustment segment is a no-op when no service is
pending (in particular right after a claim-open reset); when a service
is pending it patches the adjustment slot of exactly the rows keyed by
the pending identity, leaving every other service row, all claims, the
raw rows and the context untouched; and after two service-line segments
the pending identity is the second insert's, so the adjustment never
touches the first inserted service row. -/
theorem c6_cas_targets_only_pending_service (src : String) (now : Nat) (db : DB)
    (ctx : Ctx) (seg : String) (h : segTag seg = "CAS") :
    (ctx.pending_service_id = none → stepSeg src now db ctx seg = ⟨db, ctx, 0⟩)
  ∧ (∀ sid, ctx.pending_service_id = some sid →
      (stepSeg src now db ctx seg).ctx = ctx
      ∧ (stepSeg src now db ctx seg).db.claims = db.claims
      ∧ (stepSeg src now db ctx seg).db.raw = db.raw
      ∧ (stepSeg src now db ctx seg).db.services.length = db.services.length
      ∧ (∀ i r, db.services.get? i = some r → r.service_id ≠ sid →
          (stepSeg src now db ctx seg).db.services.get? i = some r)
      ∧ (∀ i r, db.services.get? i = some r → r.service_id = sid →
          (stepSeg src now db ctx seg).db.services.get? i
            = some { r with cas_group_code := fld (pySplit seg '|') 1
                            cas_reason_code := fld (pySplit seg '|') 2
                            cas_adjustment_amount := dec (fld (pySplit seg '|') 3) }))
  ∧ (∀ s1 s2, segTag s1 = "SVC" → segTag s2 = "SVC" →
      (stepSeg src now (stepSeg src now db ctx s1).db
          (stepSeg src now db ctx s1).ctx s2).ctx.pending_service_id
        = some (db.nextServiceId + 1)
      ∧ (stepSeg src now
            (stepSeg src now (stepSeg src now db ctx s1).db (stepSeg src now db ctx s1).ctx s2).db
            (stepSeg src now (stepSeg src now db ctx s1).db (stepSeg src now db ctx s1).ctx s2).ctx
            seg).db.services.get? db.services.length
          = (stepSeg src now (stepSeg src now db ctx s1).db
              (stepSeg src now db ctx s1).ctx s2).db.services.get? db.services.length) := by
  refine ⟨fun hp => stepSeg_cas_none src now db ctx seg h hp, ?_, ?_⟩
  · intro sid hp
    rw [stepSeg_cas src now db ctx seg h sid hp]
    refine ⟨rfl, rfl, rfl, by simp [List.length_map], ?_, ?_⟩
    · intro i r hr hne
      dsimp only
      rw [List.get?_map, hr, Option.map_some']
      rw [if_neg (by simpa using hne)]
    · intro i r hr hre
      dsimp only
      rw [List.get?_map, hr, Option.map_some']
      rw [if_pos (by rw [hre])]
  · intro s1 s2 h1 h2
    obtain ⟨e1, -, -, en1, ep1, -⟩ := stepSeg_svc src now db ctx s1 h1
    obtain ⟨e2, -, -, en2, ep2, -⟩ := stepSeg_svc src now (stepSeg src now db ctx s1).db
      (stepSeg src now db ctx s1).ctx s2 h2
    have hpend2 : (stepSeg src now (stepSeg src now db ctx s1).db
        (stepSeg src now db ctx s1).ctx s2).ctx.pending_service_id
        = some (db.nextServiceId + 1) := by rw [ep2, en1]
    refine ⟨hpend2, ?_⟩
    rw [stepSeg_cas src now _ _ seg h (db.nextServiceId + 1) hpend2]
    dsimp only
    rw [e2, e1]
    have hlt : db.services.length
        < (db.services ++ [(⟨db.nextServiceId, ctx.current_claim_db_id,
            (if 2 ≤ (split_composite (fld (pySplit s1 '|') 1)).length
              then (split_composite (fld (pySplit s1 '|') 1)).get? 1 else none),
            dec (fld (pySplit s1 '|') 2), dec (fld (pySplit s1 '|') 3),
            none, none, none, none⟩ : ServiceRow)]).length := by
      simp
    rw [List.get?_map, List.get?_append hlt, List.get?_concat_length, Option.map_some']
    rw [if_neg (by simp)]

/-- Witness for `c6_cas_targets_only_pending_service`: with no pending
service a CAS segment leaves store and context untouched. -/
theorem c6_cas_targets_only_pending_service_witness :
    stepSeg "f" 0 DB.empty Ctx.init "CAS|CO|45|20.00" = ⟨DB.empty, Ctx.init, 0⟩ :=
  (c6_cas_targets_only_pending_service "f" 0 DB.empty Ctx.init "CAS|CO|45|20.00"
    (by decide)).1 rfl

end FunctionApp

namespace FunctionApp

/-- Full effect of a claim-open segment. -/
theorem stepSeg_clp (src : String) (now : Nat) (db : DB) (ctx : Ctx) (seg : String)
    (h : segTag seg = "CLP") :
    stepSeg src now db ctx seg =
      ⟨{ db with
           claims := db.claims ++
             [{ claim_id := db.nextClaimId
                clp_patient_control_number := fld (pySplit seg '|') 1
                clp_claim_status_code := fld (pySplit seg '|') 2
                clp_total_charge_amount := dec (fld (pySplit seg '|') 3)
                clp_payment_amount := dec (fld (pySplit seg '|') 4)
                clp_patient_responsibility := dec (fld (pySplit seg '|') 5)
                clp_payer_claim_control_number := fld (pySplit seg '|') 7
                clp_facility_type_code := fld (pySplit seg '|') 8
                clp_claim_frequency_code := fld (pySplit seg '|') 9
                nm1_patient_id := ctx.patient_id
                nm1_provider_id := ctx.provider_id
                dtm_service_date := none
                source_file_name := src
                ingestion_timestamp := now }]
           nextClaimId := db.nextClaimId + 1 },
       { ctx with current_claim_db_id := some db.nextClaimId
                  pending_service_id := none
                  claims_added := ctx.claims_added + 1 },
       1⟩ := by
  simp only [stepSeg]
  rw [if_pos h]

/-- Effects of an entity-identification segment on the parts of the
state the referential invariant watches: services and raw are
untouched, the open-claim pointer is untouched, and the claims list is
either unchanged or an identity-preserving patch map. -/
theorem stepSeg_nm1_effects (src : String) (now : Nat) (db : DB) (ctx : Ctx) (seg : String)
    (h : segTag seg = "NM1") :
    (stepSeg src now db ctx seg).db.services = db.services
  ∧ (stepSeg src now db ctx seg).db.raw = db.raw
  ∧ (stepSeg src now db ctx seg).ctx.current_claim_db_id = ctx.current_claim_db_id
  ∧ (stepSeg src now db ctx seg).ctx.pending_service_id = ctx.pending_service_id
  ∧ ((stepSeg src now db ctx seg).db.claims = db.claims
      ∨ ∃ p q, (stepSeg src now db ctx seg).db.claims
          = db.claims.map fun r =>
              if some r.claim_id = ctx.current_claim_db_id then
                { r with nm1_patient_id := coalesce p r.nm1_patient_id
                         nm1_provider_id := coalesce q r.nm1_provider_id }
              else r) := by
  have hA : ¬ (segTag seg = "CLP") := by rw [h]; decide
  simp only [stepSeg]
  rw [if_neg hA, if_pos h]
  split_ifs <;>
    exact ⟨rfl, rfl, rfl, rfl, by first
      | exact Or.inl rfl
      | exact Or.inr ⟨_, _, rfl⟩⟩

/-- Effects of a date segment: raw untouched, context untouched, and
claims/services either unchanged or an identity-preserving patch map. -/
theorem stepSeg_dtm_effects (src : String) (now : Nat) (db : DB) (ctx : Ctx) (seg : String)
    (h : segTag seg = "DTM") :
    (stepSeg src now db ctx seg).ctx = ctx
  ∧ (stepSeg src now db ctx seg).db.raw = db.raw
  ∧ ((stepSeg src now db ctx seg).db.claims = db.claims
      ∨ ∃ dt, (stepSeg src now db ctx seg).db.claims
          = db.claims.map fun r =>
              if some r.claim_id = ctx.current_claim_db_id then
                { r with dtm_service_date := dt }
              else r)
  ∧ ((stepSeg src now db ctx seg).db.services = db.services
      ∨ ∃ dt, (stepSeg src now db ctx seg).db.services
          = db.services.map fun r =>
              if some r.service_id = ctx.pending_service_id then
                { r with service_date := dt }
              else r) := by
  have hA : ¬ (segTag seg = "CLP") := by rw [h]; decide
  have hB : ¬ (segTag seg = "NM1") := by rw [h]; decide
  simp only [stepSeg]
  rw [if_neg hA, if_neg hB, if_pos h]
  split_ifs <;>
    refine ⟨rfl, rfl, ?_, ?_⟩ <;>
      first
        | exact Or.inl rfl
        | exact Or.inr ⟨_, rfl⟩

/-- A segment with an unrecognized tag has no effect on store or
context. -/
theorem stepSeg_other (src : String) (now : Nat) (db : DB) (ctx : Ctx) (seg : String)
    (hA : ¬ (segTag seg = "CLP")) (hB : ¬ (segTag seg = "NM1"))
    (hC : ¬ (segTag seg = "DTM")) (hD : ¬ (segTag seg = "SVC"))
    (hE : ¬ (segTag seg = "CAS")) :
    stepSeg src now db ctx seg = ⟨db, ctx, 0⟩ := by
  simp only [stepSeg]
  rw [if_neg hA, if_neg hB, if_neg hC, if_neg hD, if_neg (by simp [hE])]

end FunctionApp

namespace FunctionApp

theorem stepSeg_refok (src : String) (now : Nat) (db : DB) (ctx : Ctx) (seg : String)
    (h : RefOk db ctx) :
    RefOk (stepSeg src now db ctx seg).db (stepSeg src now db ctx seg).ctx := by
  obtain ⟨hs, hc⟩ := h
  by_cases hclp : segTag seg = "CLP"
  · rw [stepSeg_clp src now db ctx seg hclp]
    constructor
    · intro s hmem
      rcases hs s hmem with h1 | ⟨c, hm, he⟩
      · exact Or.inl h1
      · exact Or.inr ⟨c, List.mem_append_left _ hm, he⟩
    · exact Or.inr ⟨_, List.mem_append_right _ (List.mem_singleton_self _), rfl⟩
  by_cases hnm1 : segTag seg = "NM1"
  · obtain ⟨e1, -, e3, -, hcl⟩ := stepSeg_nm1_effects src now db ctx seg hnm1
    constructor
    · rw [e1]
      intro s hmem
      rcases hs s hmem with h1 | ⟨c, hm, he⟩
      · exact Or.inl h1
      · rcases hcl with hcl | ⟨p, q, hcl⟩
        · rw [hcl]; exact Or.inr ⟨c, hm, he⟩
        · rw [hcl]
          refine Or.inr ⟨_, List.mem_map_of_mem _ hm, ?_⟩
          dsimp only
          split_ifs <;> exact he
    · rw [e3]
      rcases hc with h1 | ⟨c, hm, he⟩
      · exact Or.inl h1
      · rcases hcl with hcl | ⟨p, q, hcl⟩
        · rw [hcl]; exact Or.inr ⟨c, hm, he⟩
        · rw [hcl]
          refine Or.inr ⟨_, List.mem_map_of_mem _ hm, ?_⟩
          dsimp only
          split_ifs <;> exact he
  by_cases hdtm : segTag seg = "DTM"
  · obtain ⟨e1, -, hcl, hsv⟩ := stepSeg_dtm_effects src now db ctx seg hdtm
    have hclaims : ∀ v, (∃ c ∈ db.claims, some c.claim_id = v) →
        ∃ c ∈ (stepSeg src now db ctx seg).db.claims, some c.claim_id = v := by
      rintro v ⟨c, hm, he⟩
      rcases hcl with hcl | ⟨dt, hcl⟩
      · rw [hcl]; exact ⟨c, hm, he⟩
      · rw [hcl]
        refine ⟨_, List.mem_map_of_mem _ hm, ?_⟩
        dsimp only
        split_ifs <;> exact he
    constructor
    · intro s hmem
      rcases hsv with hsv | ⟨dt, hsv⟩
      · rw [hsv] at hmem
        rcases hs s hmem with h1 | he
        · exact Or.inl h1
        · exact Or.inr (hclaims _ he)
      · rw [hsv] at hmem
        obtain ⟨s0, hm0, rfl⟩ := List.mem_map.mp hmem
        have hid : ((fun r =>
            if some r.service_id = ctx.pending_service_id then
              { r with service_date := dt } else r) s0).claim_id = s0.claim_id := by
          dsimp only
          split_ifs <;> rfl
        rw [hid]
        rcases hs s0 hm0 with h1 | he
        · exact Or.inl h1
        · exact Or.inr (hclaims _ he)
    · rw [e1]
      rcases hc with h1 | he
      · exact Or.inl h1
      · exact Or.inr (hclaims _ he)
  by_cases hsvc : segTag seg = "SVC"
  · obtain ⟨e1, e2, -, -, -, e6⟩ := stepSeg_svc src now db ctx seg hsvc
    constructor
    · rw [e1, e2]
      intro s hmem
      rcases List.mem_append.mp hmem with hmem | hmem
      · exact hs s hmem
      · rw [List.mem_singleton.mp hmem]
        exact hc
    · rw [e6, e2]
      exact hc
  by_cases hcas : segTag seg = "CAS"
  · cases hps : ctx.pending_service_id with
    | none =>
        rw [stepSeg_cas_none src now db ctx seg hcas hps]
        exact ⟨hs, hc⟩
    | some sid =>
        rw [stepSeg_cas src now db ctx seg hcas sid hps]
        constructor
        · intro s hmem
          obtain ⟨s0, hm0, rfl⟩ := List.mem_map.mp hmem
          have hid : ((fun r =>
              if some r.service_id = some sid then
                { r with cas_group_code := fld (pySplit seg '|') 1
                         cas_reason_code := fld (pySplit seg '|') 2
                         cas_adjustment_amount := dec (fld (pySplit seg '|') 3) } else r) s0).claim_id
              = s0.claim_id := by
            dsimp only
            split_ifs <;> rfl
          rw [hid]
          exact hs s0 hm0
        · exact hc
  · rw [stepSeg_other src now db ctx seg hclp hnm1 hdtm hsvc hcas]
    exact ⟨hs, hc⟩

theorem runPure_refok (src : String) (now : Nat) :
    ∀ (segs : List String) (db : DB) (ctx : Ctx), RefOk db ctx →
      RefOk (runPure src now db ctx segs).1 (runPure src now db ctx segs).2
  | [], _, _, h => h
  | seg :: rest, db, ctx, h => by
      rw [runPure]
      exact runPure_refok src now rest _ _ (stepSeg_refok src now db ctx seg h)

/-- The store a completed no-failure run leaves behind is the pure fold
over the raw-augmented store. -/
theorem main835_noFail_db (c src : String) (now : Nat) (content : String) (db : DB)
    (hc : c ≠ "") :
    (main835 noFail (some c) src now content db).2
      = (runPure src now { db with raw := db.raw ++ (pySegs content).map (rawOf src now) }
          Ctx.init (pySegs content)).1 := by
  obtain ⟨k', hk⟩ := runLoop_noFail src now (pySegs content)
    (if (pySegs content).map (rawOf src now) = [] then 2 else 3)
    { db with raw := db.raw ++ (pySegs content).map (rawOf src now) } Ctx.init
  simp only [main835, noFail, if_neg hc, Bool.false_eq_true, if_false, and_false, hk]

end FunctionApp

namespace FunctionApp

/-- C8 (confirmed): a service-line segment always inserts exactly one
service row keyed by the open-claim pointer, so with no claim open the
row is keyed by the explicit null sentinel (the chosen policy); and
over any complete run from an empty store, every service row's claim
key is either the null sentinel or the identity of a claim row present
in the final store — never an alias of an unrelated claim. -/
theorem c8_orphan_service_null_sentinel :
    (∀ (src : String) (now : Nat) (db : DB) (ctx : Ctx) (seg : String),
       segTag seg = "SVC" →
       (stepSeg src now db ctx seg).db.claims = db.claims
       ∧ (∃ row, (stepSeg src now db ctx seg).db.services = db.services ++ [row]
            ∧ row.claim_id = ctx.current_claim_db_id)
       ∧ (ctx.current_claim_db_id = none →
           ∃ row, (stepSeg src now db ctx seg).db.services = db.services ++ [row]
             ∧ row.claim_id = none))
  ∧ (∀ (c src : String) (now : Nat) (content : String), c ≠ "" →
       ∀ s ∈ (main835 noFail (some c) src now content DB.empty).2.services,
         s.claim_id = none
         ∨ ∃ cr ∈ (main835 noFail (some c) src now content DB.empty).2.claims,
             some cr.claim_id = s.claim_id) := by
  constructor
  · intro src now db ctx seg h
    obtain ⟨e1, e2, -, -, -, -⟩ := stepSeg_svc src now db ctx seg h
    refine ⟨e2, ⟨_, e1, rfl⟩, fun hnone => ⟨_, e1, hnone⟩⟩
  · intro c src now content hc s hmem
    rw [main835_noFail_db c src now content DB.empty hc] at hmem ⊢
    exact (runPure_refok src now (pySegs content)
      { DB.empty with raw := DB.empty.raw ++ (pySegs content).map (rawOf src now) }
      Ctx.init ⟨fun s h => absurd h (List.not_mem_nil s), Or.inl rfl⟩).1 s hmem

/-- Witness for `c8_orphan_service_null_sentinel`: a service line with
no claim open inserts a null-keyed row, and in the one-orphan-service
run the row satisfies the referential disjunction. -/
theorem c8_orphan_service_null_sentinel_witness :
    ((stepSeg "f" 0 DB.empty Ctx.init "SVC|HC^A^B|1|1").db.claims = DB.empty.claims
      ∧ (∃ row, (stepSeg "f" 0 DB.empty Ctx.init "SVC|HC^A^B|1|1").db.services
            = DB.empty.services ++ [row]
          ∧ row.claim_id = Ctx.init.current_claim_db_id)
      ∧ (Ctx.init.current_claim_db_id = none →
          ∃ row, (stepSeg "f" 0 DB.empty Ctx.init "SVC|HC^A^B|1|1").db.services
              = DB.empty.services ++ [row]
            ∧ row.claim_id = none))
  ∧ ((⟨0, none, some "A", some (.num false 1 0), some (.num false 1 0),
        none, none, none, none⟩ : ServiceRow).claim_id = none
      ∨ ∃ cr ∈ (main835 noFail (some "cs") "f" 0 "SVC|HC^A^B|1|1~" DB.empty).2.claims,
          some cr.claim_id = (⟨0, none, some "A", some (.num false 1 0),
            some (.num false 1 0), none, none, none, none⟩ : ServiceRow).claim_id) :=
  ⟨c8_orphan_service_null_sentinel.1 "f" 0 DB.empty Ctx.init "SVC|HC^A^B|1|1" (by decide),
   c8_orphan_service_null_sentinel.2 "cs" "f" 0 "SVC|HC^A^B|1|1~" (by decide)
     ⟨0, none, some "A", some (.num false 1 0), some (.num false 1 0),
       none, none, none, none⟩ (by decide)⟩

end FunctionApp

namespace FunctionApp

/-- A no-failure run in closed form: success outcome with the loop's
counters, and the pure fold's store. -/
theorem main835_noFail_eq (c src : String) (now : Nat) (content : String) (db : DB)
    (hc : c ≠ "") :
    main835 noFail (some c) src now content db
      = (.success
          (runPure src now { db with raw := db.raw ++ (pySegs content).map (rawOf src now) }
            Ctx.init (pySegs content)).2.claims_added
          (runPure src now { db with raw := db.raw ++ (pySegs content).map (rawOf src now) }
            Ctx.init (pySegs content)).2.services_added
          ((pySegs content).map (rawOf src now)).length,
         (runPure src now { db with raw := db.raw ++ (pySegs content).map (rawOf src now) }
           Ctx.init (pySegs content)).1) := by
  obtain ⟨k', hk⟩ := runLoop_noFail src now (pySegs content)
    (if (pySegs content).map (rawOf src now) = [] then 2 else 3)
    { db with raw := db.raw ++ (pySegs content).map (rawOf src now) } Ctx.init
  simp only [main835, noFail, if_neg hc, Bool.false_eq_true, if_false, and_false, hk]

/-- C5 (confirmed): with `autocommit = False`, one `commit` after the
whole loop, exceptions re-raised and the connection closed in
`finally`, a run in which any statement fails ends in the re-raised
failure with the committed store unchanged; and a run that reports
success behaved exactly like a failure-free run (no failure is ever
swallowed into a partial commit). -/
theorem c5_failure_rolls_back_and_reraises (fail : Nat → Bool) (c src : String)
    (now : Nat) (content : String) (db : DB) (hc : c ≠ "") :
    ((main835 fail (some c) src now content db).1 = .failure →
      (main835 fail (some c) src now content db).2 = db)
  ∧ (∀ a s r, (main835 fail (some c) src now content db).1 = .success a s r →
      main835 fail (some c) src now content db
        = main835 noFail (some c) src now content db) := by
  rw [main835_noFail_eq c src now content db hc]
  simp only [main835, if_neg hc]
  by_cases f0 : fail 0
  · rw [if_pos f0]
    exact ⟨fun _ => rfl, fun a s r h => Outcome.noConfusion h⟩
  rw [if_neg f0]
  by_cases f1 : fail 1
  · rw [if_pos f1]
    exact ⟨fun _ => rfl, fun a s r h => Outcome.noConfusion h⟩
  rw [if_neg f1]
  by_cases f2 : (pySegs content).map (rawOf src now) ≠ [] ∧ fail 2
  · rw [if_pos f2]
    exact ⟨fun _ => rfl, fun a s r h => Outcome.noConfusion h⟩
  rw [if_neg f2]
  rcases hloop : runLoop fail src now
      (if (pySegs content).map (rawOf src now) = [] then 2 else 3)
      { db with raw := db.raw ++ (pySegs content).map (rawOf src now) } Ctx.init
      (pySegs content) with e | out
  · exact ⟨fun _ => rfl, fun a s r h => Outcome.noConfusion h⟩
  · obtain ⟨k, db2, ctx⟩ := out
    dsimp only
    have hpure := runLoop_ok_pure fail src now (pySegs content) _ _ _ _ _ _ hloop
    have hdb2 : db2 = (runPure src now
        { db with raw := db.raw ++ (pySegs content).map (rawOf src now) }
        Ctx.init (pySegs content)).1 := by rw [← hpure]
    have hctx : ctx = (runPure src now
        { db with raw := db.raw ++ (pySegs content).map (rawOf src now) }
        Ctx.init (pySegs content)).2 := by rw [← hpure]
    by_cases fk : fail k
    · rw [if_pos fk]
      exact ⟨fun _ => rfl, fun a s r h => Outcome.noConfusion h⟩
    · rw [if_neg fk]
      refine ⟨fun h => Outcome.noConfusion h, fun a s r _ => ?_⟩
      rw [hdb2, hctx]

/-- Witness for `c5_failure_rolls_back_and_reraises`: when the very
first statement fails the run reports failure and the store is exactly
the initial one. -/
theorem c5_failure_rolls_back_and_reraises_witness :
    (main835 (fun k => k == 0) (some "cs") "f" 0 "CLP|A~" DB.empty).2 = DB.empty :=
  (c5_failure_rolls_back_and_reraises (fun k => k == 0) "cs" "f" 0 "CLP|A~" DB.empty
    (by decide)).1 (by decide)

end FunctionApp

set_option maxHeartbeats 2000000 in
/-- Exhaustive table for the `%m%d` regex on four digit characters: the
match consumes all four exactly when the first two form a month 01–12
and the last two form a day 01–31, and then yields that reading. -/
theorem mdFull_table : ∀ a b c d : Fin 10,
    mdFull [dchar a.val, dchar b.val, dchar c.val, dchar d.val]
      = (if 1 ≤ 10 * a.val + b.val ∧ 10 * a.val + b.val ≤ 12
            ∧ 1 ≤ 10 * c.val + d.val ∧ 10 * c.val + d.val ≤ 31
         then some (10 * a.val + b.val, 10 * c.val + d.val) else none) := by
  decide

theorem char_digit_bounds (c : Char) (h : c.isDigit) : 48 ≤ c.toNat ∧ c.toNat ≤ 57 := by
  simp [Char.isDigit] at h
  exact h

theorem eq_dchar_digitVal (c : Char) (h : c.isDigit) :
    dchar (digitVal c) = c ∧ digitVal c < 10 := by
  obtain ⟨hl, hu⟩ := char_digit_bounds c h
  constructor
  · have he : 48 + (c.toNat - 48) = c.toNat := by omega
    rw [dchar, digitVal, he, Char.ofNat_toNat]
  · rw [digitVal]
    omega

theorem list_len8 {α : Type} (l : List α) (h : l.length = 8) :
    ∃ a b c d e f g i, l = [a, b, c, d, e, f, g, i] := by
  rcases l with - | ⟨a, l⟩
  · simp at h
  rcases l with - | ⟨b, l⟩
  · simp at h
  rcases l with - | ⟨c, l⟩
  · simp at h
  rcases l with - | ⟨d, l⟩
  · simp at h
  rcases l with - | ⟨e, l⟩
  · simp at h
  rcases l with - | ⟨f, l⟩
  · simp at h
  rcases l with - | ⟨g, l⟩
  · simp at h
  rcases l with - | ⟨i, l⟩
  · simp at h
  rcases l with - | ⟨j, l⟩
  · exact ⟨a, b, c, d, e, f, g, i, rfl⟩
  · simp at h

theorem natOfDigits_two (a b : Char) :
    natOfDigits [a, b] = 10 * digitVal a + digitVal b := by
  simp only [natOfDigits, List.foldl]
  omega

theorem natOfDigits_four (a b c d : Char) :
    natOfDigits [a, b, c, d]
      = 1000 * digitVal a + 100 * digitVal b + 10 * digitVal c + digitVal d := by
  simp only [natOfDigits, List.foldl]
  omega

theorem daysInMonth_le_31 (y m : Nat) : daysInMonth y m ≤ 31 := by
  unfold daysInMonth
  split_ifs <;> omega

theorem strptimeYmd_digits (c1 c2 c3 c4 : Char) (rest : List Char)
    (h1 : c1.isDigit) (h2 : c2.isDigit) (h3 : c3.isDigit) (h4 : c4.isDigit) :
    strptimeYmd ⟨c1 :: c2 :: c3 :: c4 :: rest⟩
      = match mdFull rest with
        | some (m, d) => mkPyDate (natOfDigits [c1, c2, c3, c4]) m d
        | none => none := by
  simp only [strptimeYmd]
  rw [if_pos ⟨h1, h2, h3, h4⟩]
  rcases hm : mdMatch rest with - | ⟨m, d, left⟩
  · simp [mdFull, hm]
  · rcases left with - | ⟨x, xs⟩
    · simp [mdFull, hm]
    · simp [mdFull, hm]

/-- On an eight-digit string, `safe_date` succeeds exactly on the
standard 4-2-2 reading being a valid calendar date, and then returns
that reading. -/
theorem safe_date_8digits (c1 c2 c3 c4 c5 c6 c7 c8 : Char)
    (h1 : c1.isDigit) (h2 : c2.isDigit) (h3 : c3.isDigit) (h4 : c4.isDigit)
    (h5 : c5.isDigit) (h6 : c6.isDigit) (h7 : c7.isDigit) (h8 : c8.isDigit) :
    safe_date ⟨[c1, c2, c3, c4, c5, c6, c7, c8]⟩
      = if validYMD (natOfDigits [c1, c2, c3, c4]) (natOfDigits [c5, c6])
            (natOfDigits [c7, c8])
        then some ⟨natOfDigits [c1, c2, c3, c4], natOfDigits [c5, c6],
          natOfDigits [c7, c8]⟩
        else none := by
  obtain ⟨e5, b5⟩ := eq_dchar_digitVal c5 h5
  obtain ⟨e6, b6⟩ := eq_dchar_digitVal c6 h6
  obtain ⟨e7, b7⟩ := eq_dchar_digitVal c7 h7
  obtain ⟨e8, b8⟩ := eq_dchar_digitVal c8 h8
  obtain ⟨g1, g1'⟩ := char_digit_bounds c1 h1
  obtain ⟨g2, g2'⟩ := char_digit_bounds c2 h2
  obtain ⟨g3, g3'⟩ := char_digit_bounds c3 h3
  obtain ⟨g4, g4'⟩ := char_digit_bounds c4 h4
  have hne : (⟨[c1, c2, c3, c4, c5, c6, c7, c8]⟩ : String) ≠ "" := by
    intro hh
    have hlen := congrArg (fun t : String => t.data.length) hh
    simp at hlen
  rw [safe_date, if_neg hne,
    strptimeYmd_digits c1 c2 c3 c4 [c5, c6, c7, c8] h1 h2 h3 h4]
  rw [show [c5, c6, c7, c8]
      = [dchar (digitVal c5), dchar (digitVal c6), dchar (digitVal c7), dchar (digitVal c8)] by
    rw [e5, e6, e7, e8]]
  rw [mdFull_table ⟨digitVal c5, b5⟩ ⟨digitVal c6, b6⟩ ⟨digitVal c7, b7⟩ ⟨digitVal c8, b8⟩]
  dsimp only
  rw [natOfDigits_two c5 c6, natOfDigits_two c7 c8]
  by_cases hv : validYMD (natOfDigits [c1, c2, c3, c4])
      (10 * digitVal c5 + digitVal c6) (10 * digitVal c7 + digitVal c8)
  · rw [if_pos hv]
    obtain ⟨v1, v2, v3, v4, v5⟩ := hv
    have h31 : 10 * digitVal c7 + digitVal c8 ≤ 31 :=
      le_trans v5 (daysInMonth_le_31 _ _)
    rw [if_pos ⟨v2, v3, v4, h31⟩]
    simp only [mkPyDate]
    rw [if_pos]
    refine ⟨v1, ?_, v2, v3, v4, v5⟩
    rw [natOfDigits_four] at *
    simp only [digitVal] at *
    omega
  · rw [if_neg hv]
    by_cases h31 : 1 ≤ 10 * digitVal c5 + digitVal c6
        ∧ 10 * digitVal c5 + digitVal c6 ≤ 12
        ∧ 1 ≤ 10 * digitVal c7 + digitVal c8
        ∧ 10 * digitVal c7 + digitVal c8 ≤ 31
    · rw [if_pos h31]
      simp only [mkPyDate]
      rw [if_neg]
      intro hcon
      exact hv ⟨hcon.1, hcon.2.2.1, hcon.2.2.2.1, hcon.2.2.2.2.1, hcon.2.2.2.2.2⟩
    · rw [if_neg h31]

/-- C7, counterexample: the six-digit string `202311` is not a valid
8-digit year-month-day value, yet `safe_date` parses it to 2023-01-01
(the `%m`/`%d` patterns accept one-digit months and days with
backtracking), so date parsing does not map every non-8-digit-date
value to null. -/
theorem c7_six_digit_parses_nonnull :
    safe_date "202311" = some ⟨2023, 1, 1⟩ := by decide

/-- C7 (amended): parsing never raises; on eight-digit strings
`safe_date` yields null exactly when the standard 4-2-2 reading is not
a valid calendar date (invalid month `20231399` included) and yields
that reading otherwise; amount parsing maps absent, empty and
grammar-invalid fields to null.  (`safe_date` additionally accepts some
six- and seven-digit strings via one-digit month/day matches.) -/
theorem c7_parse_null_on_invalid :
    (∀ s : String, s.data.length = 8 → (∀ c ∈ s.data, c.isDigit) →
        ¬ validYMD (natOfDigits (s.data.take 4)) (natOfDigits ((s.data.drop 4).take 2))
            (natOfDigits (s.data.drop 6)) →
        safe_date s = none)
  ∧ (∀ s : String, s.data.length = 8 → (∀ c ∈ s.data, c.isDigit) →
        validYMD (natOfDigits (s.data.take 4)) (natOfDigits ((s.data.drop 4).take 2))
            (natOfDigits (s.data.drop 6)) →
        safe_date s = some ⟨natOfDigits (s.data.take 4),
          natOfDigits ((s.data.drop 4).take 2), natOfDigits (s.data.drop 6)⟩)
  ∧ (dec none = none ∧ dec (some "") = none
      ∧ ∀ v, decimalParse v = none → dec (some v) = none) := by
  refine ⟨?_, ?_, rfl, rfl, ?_⟩
  · intro s h8 hdig hnv
    obtain ⟨l⟩ := s
    obtain ⟨c1, c2, c3, c4, c5, c6, c7, c8, rfl⟩ := list_len8 l h8
    rw [safe_date_8digits c1 c2 c3 c4 c5 c6 c7 c8
      (hdig c1 (by simp)) (hdig c2 (by simp)) (hdig c3 (by simp)) (hdig c4 (by simp))
      (hdig c5 (by simp)) (hdig c6 (by simp)) (hdig c7 (by simp)) (hdig c8 (by simp))]
    exact if_neg hnv
  · intro s h8 hdig hv
    obtain ⟨l⟩ := s
    obtain ⟨c1, c2, c3, c4, c5, c6, c7, c8, rfl⟩ := list_len8 l h8
    rw [safe_date_8digits c1 c2 c3 c4 c5 c6 c7 c8
      (hdig c1 (by simp)) (hdig c2 (by simp)) (hdig c3 (by simp)) (hdig c4 (by simp))
      (hdig c5 (by simp)) (hdig c6 (by simp)) (hdig c7 (by simp)) (hdig c8 (by simp))]
    exact if_pos hv
  · intro v h
    by_cases hv : v = "" <;> simp [dec, hv, h]

/-- Witness for `c7_parse_null_on_invalid`: the spec's invalid-month
example maps to null, a valid leap date parses, and a non-numeric
amount maps to null. -/
theorem c7_parse_null_on_invalid_witness :
    safe_date "20231399" = none
  ∧ safe_date "20240229" = some ⟨2024, 2, 29⟩
  ∧ dec (some "abc") = none :=
  ⟨c7_parse_null_on_invalid.1 "20231399" (by decide) (by decide) (by decide),
   c7_parse_null_on_invalid.2.1 "20240229" (by decide) (by decide) (by decide),
   c7_parse_null_on_invalid.2.2.2.2 "abc" (by decide)⟩
